import Mathlib

/-!
Verification development for the aurynk udev proxy subsystem.

The definitions below are a shallow embedding of the Python sources:
  * `scripts/aurynk_udev_proxy.py` (class `UdevProxyServer`): the device
    registry (`self.devices`), the hotplug event handler
    `_on_device_event_async`, the adb reconciliation `_rescan_adb`, the
    broadcast fan-out `_broadcast`, the command router `_handle_cmd` /
    `_handle_client`, and the reply normalization `_send`.
  * `aurynk/services/udev_proxy_client.py` (`UdevProxyClient.send_command`).
  * `aurynk/services/tray_service.py` (the `_norm` serial normalizer used by
    `_canonicalize_adb_devices`).

Python dictionaries are modelled as association lists with Python's dict
semantics (lookup of the unique key, in-place update, insertion at the end,
`pop` removal); strings are Lean `String`s, `None`-able values are `Option`s,
Python truthiness of optional strings is `pyTruthy`.
-/

namespace UdevProxy

/-- Association-list model of a Python `dict` with `String` keys:
`lookup` returns the value of the first matching key (dicts have unique
keys, tracked by the `keys.Nodup` invariant). -/
abbrev Dict (α : Type) := List (String × α)

/-- `d[k]` / `d.get(k)`: value at key `k`, if present. -/
def Dict.lookup {α : Type} : Dict α → String → Option α
  | [], _ => none
  | e :: rest, key => if e.1 = key then some e.2 else Dict.lookup rest key

/-- `k in d`. -/
def Dict.contains {α : Type} (d : Dict α) (k : String) : Bool :=
  (d.lookup k).isSome

/-- `d[k] = v`: replace the value in place if the key exists, else append,
exactly as a Python dict does. -/
def Dict.insert {α : Type} : Dict α → String → α → Dict α
  | [], key, v => [(key, v)]
  | e :: rest, key, v =>
      if e.1 = key then (e.1, v) :: rest else e :: Dict.insert rest key v

/-- `d.pop(k, default)`'s effect on the dict: remove the entry at `k`. -/
def Dict.erase {α : Type} : Dict α → String → Dict α
  | [], _ => []
  | e :: rest, key => if e.1 = key then rest else e :: Dict.erase rest key

/-- `list(d.keys())`. -/
def Dict.keys {α : Type} (d : Dict α) : List String := d.map Prod.fst

/-- `list(d.values())`. -/
def Dict.values {α : Type} (d : Dict α) : List α := d.map Prod.snd

theorem Dict.lookup_insert_self {α : Type} (d : Dict α) (k : String) (v : α) :
    (d.insert k v).lookup k = some v := by
  induction d with
  | nil => simp [Dict.insert, Dict.lookup]
  | cons e rest ih =>
      by_cases h : e.1 = k
      · rw [Dict.insert, if_pos h, Dict.lookup, if_pos h]
      · rw [Dict.insert, if_neg h, Dict.lookup, if_neg h]
        exact ih

theorem Dict.lookup_insert_ne {α : Type} (d : Dict α) {k t : String} (v : α)
    (h : t ≠ k) : (d.insert k v).lookup t = d.lookup t := by
  induction d with
  | nil =>
      simp only [Dict.insert, Dict.lookup, if_neg (fun hh : k = t => h hh.symm)]
  | cons e rest ih =>
      by_cases he : e.1 = k
      · have het : ¬ (e.1 = t) := fun hh => h (he.symm.trans hh).symm
        rw [Dict.insert, if_pos he, Dict.lookup, if_neg het, Dict.lookup,
          if_neg het]
      · by_cases ht : e.1 = t
        · rw [Dict.insert, if_neg he, Dict.lookup, if_pos ht, Dict.lookup,
            if_pos ht]
        · rw [Dict.insert, if_neg he, Dict.lookup, if_neg ht, Dict.lookup,
            if_neg ht]
          exact ih

theorem Dict.lookup_erase_ne {α : Type} (d : Dict α) {k t : String}
    (h : t ≠ k) : (d.erase k).lookup t = d.lookup t := by
  induction d with
  | nil => rw [Dict.erase]
  | cons e rest ih =>
      by_cases he : e.1 = k
      · have het : ¬ (e.1 = t) := fun hh => h (he.symm.trans hh).symm
        rw [Dict.erase, if_pos he, Dict.lookup, if_neg het]
      · by_cases ht : e.1 = t
        · rw [Dict.erase, if_neg he, Dict.lookup, if_pos ht, Dict.lookup,
            if_pos ht]
        · rw [Dict.erase, if_neg he, Dict.lookup, if_neg ht, Dict.lookup,
            if_neg ht]
          exact ih

theorem Dict.lookup_isSome_iff_mem_keys {α : Type} (d : Dict α) (t : String) :
    (d.lookup t).isSome = true ↔ t ∈ d.keys := by
  induction d with
  | nil => simp [Dict.lookup, Dict.keys]
  | cons e rest ih =>
      rw [Dict.keys, List.map_cons]
      by_cases h : e.1 = t
      · rw [Dict.lookup, if_pos h, Option.isSome_some]
        exact ⟨fun _ => h ▸ List.mem_cons_self e.1 _, fun _ => rfl⟩
      · rw [Dict.lookup, if_neg h]
        rw [Dict.keys] at ih
        rw [ih]
        constructor
        · intro hm
          exact List.mem_cons_of_mem _ hm
        · intro hm
          rcases List.mem_cons.1 hm with hm | hm
          · exact absurd hm.symm h
          · exact hm

theorem Dict.lookup_eq_none_of_not_mem_keys {α : Type} {d : Dict α}
    {t : String} (h : t ∉ d.keys) : d.lookup t = none := by
  cases hl : d.lookup t with
  | none => rfl
  | some v =>
      exact absurd ((Dict.lookup_isSome_iff_mem_keys d t).1 (by simp [hl])) h

theorem Dict.mem_keys_of_lookup_some {α : Type} {d : Dict α} {t : String}
    {v : α} (h : d.lookup t = some v) : t ∈ d.keys :=
  (Dict.lookup_isSome_iff_mem_keys d t).1 (by simp [h])

theorem Dict.lookup_erase_self {α : Type} {d : Dict α} (k : String)
    (hnd : d.keys.Nodup) : (d.erase k).lookup k = none := by
  induction d with
  | nil => rw [Dict.erase, Dict.lookup]
  | cons e rest ih =>
      rw [Dict.keys, List.map_cons, List.nodup_cons] at hnd
      by_cases he : e.1 = k
      · rw [Dict.erase, if_pos he]
        refine Dict.lookup_eq_none_of_not_mem_keys ?_
        rw [Dict.keys]
        exact he ▸ hnd.1
      · rw [Dict.erase, if_neg he, Dict.lookup, if_neg he]
        exact ih hnd.2

theorem Dict.keys_insert {α : Type} (d : Dict α) (k : String) (v : α) :
    (d.insert k v).keys = if k ∈ d.keys then d.keys else d.keys ++ [k] := by
  induction d with
  | nil => simp [Dict.insert, Dict.keys]
  | cons e rest ih =>
      simp only [Dict.keys, List.map_cons] at ih ⊢
      by_cases he : e.1 = k
      · have hk : k ∈ e.1 :: List.map Prod.fst rest :=
          he ▸ List.mem_cons_self e.1 _
        rw [Dict.insert, if_pos he, if_pos hk, List.map_cons]
      · rw [Dict.insert, if_neg he, List.map_cons]
        by_cases hk : k ∈ List.map Prod.fst rest
        · have hk' : k ∈ e.1 :: List.map Prod.fst rest :=
            List.mem_cons_of_mem _ hk
          rw [if_pos hk', ih, if_pos hk]
        · have hk' : k ∉ e.1 :: List.map Prod.fst rest := by
            intro hm
            rcases List.mem_cons.1 hm with hm | hm
            · exact he hm.symm
            · exact hk hm
          rw [if_neg hk', ih, if_neg hk, List.cons_append]

theorem Dict.mem_keys_insert {α : Type} (d : Dict α) (k t : String) (v : α) :
    t ∈ (d.insert k v).keys ↔ t = k ∨ t ∈ d.keys := by
  rw [Dict.keys_insert]
  by_cases hk : k ∈ d.keys
  · rw [if_pos hk]
    exact ⟨Or.inr, fun h => h.elim (fun h => h ▸ hk) id⟩
  · rw [if_neg hk, List.mem_append, List.mem_singleton]
    exact or_comm

theorem Dict.nodupKeys_insert {α : Type} {d : Dict α} (k : String) (v : α)
    (hnd : d.keys.Nodup) : (d.insert k v).keys.Nodup := by
  rw [Dict.keys_insert]
  by_cases hk : k ∈ d.keys
  · rw [if_pos hk]; exact hnd
  · rw [if_neg hk, ← List.concat_eq_append]
    exact hnd.concat hk

theorem Dict.keys_erase_subset {α : Type} (d : Dict α) (k : String) :
    (d.erase k).keys ⊆ d.keys := by
  induction d with
  | nil => rw [Dict.erase]; exact fun t ht => ht
  | cons e rest ih =>
      simp only [Dict.keys, List.map_cons] at ih ⊢
      by_cases he : e.1 = k
      · rw [Dict.erase, if_pos he]
        exact fun t ht => List.mem_cons_of_mem _ ht
      · rw [Dict.erase, if_neg he, List.map_cons]
        exact List.cons_subset_cons e.1 ih

theorem Dict.nodupKeys_erase {α : Type} {d : Dict α} (k : String)
    (hnd : d.keys.Nodup) : (d.erase k).keys.Nodup := by
  induction d with
  | nil => rw [Dict.erase]; exact hnd
  | cons e rest ih =>
      rw [Dict.keys, List.map_cons, List.nodup_cons] at hnd
      by_cases he : e.1 = k
      · rw [Dict.erase, if_pos he]; exact hnd.2
      · rw [Dict.erase, if_neg he, Dict.keys, List.map_cons, List.nodup_cons]
        exact ⟨fun hmem => hnd.1 (Dict.keys_erase_subset rest k hmem),
          ih hnd.2⟩

/-- Python truthiness of an optional string (`if not s: ...`):
`None` and `""` are falsy. -/
def pyTruthy : Option String → Bool
  | none => false
  | some s => s != ""

/-- The device-event payload `info` built by the udev callback and the adb
scanner in `scripts/aurynk_udev_proxy.py`: a JSON object with keys
`action`, `serial`, `vendor_id`, `product_id`, `adb_props`, `properties`.
Keys absent in a given producer are modelled as `none` / `[]`. -/
structure DevInfo where
  action : String
  serial : String
  vendor_id : Option String
  product_id : Option String
  adb_props : List (String × String)
  properties : List (String × String)
deriving DecidableEq, Repr

/-- Messages the server broadcasts or stores (`_broadcast` payloads). -/
inductive Msg where
  /-- a device notification built by spreading an info dict into a JSON
  object tagged `device` -/
  | deviceEvent (info : DevInfo)
  /-- the bare fallback notification carrying only `action = remove` and a
  serial -/
  | deviceRemoveBare (serial : String)
  /-- a full-state notification tagged `state` listing device records -/
  | stateMsg (devices : List DevInfo)
deriving DecidableEq, Repr

/-! ### Serial canonicalization

`_norm` in `aurynk/services/tray_service.py` (inside
`_canonicalize_adb_devices`) computes
`re.sub(r"[^0-9a-z]", "", str(s).lower())`: lowercase the string, then drop
every character outside `0-9a-z`.  The spec describes this as stripping all
non-alphanumeric characters and lowercasing; `specCanon` is that wording,
for refinement comparison. -/

/-- Membership in the regex class `[0-9a-z]`. -/
def isNormKeep (c : Char) : Bool :=
  decide ((48 ≤ c.toNat ∧ c.toNat ≤ 57) ∨ (97 ≤ c.toNat ∧ c.toNat ≤ 122))

/-- Being an (ASCII) alphanumeric character, `[0-9A-Za-z]`. -/
def isAlphanumeric (c : Char) : Bool :=
  decide ((48 ≤ c.toNat ∧ c.toNat ≤ 57) ∨ (97 ≤ c.toNat ∧ c.toNat ≤ 122) ∨
    (65 ≤ c.toNat ∧ c.toNat ≤ 90))

/-- `str(s).lower()` on ASCII text. -/
def pyLower (s : String) : String := String.mk (s.data.map Char.toLower)

/-- The `_norm` serial normalizer of `tray_service.py` applied to a
non-empty string: `re.sub(r"[^0-9a-z]", "", str(s).lower())`. -/
def norm (s : String) : String :=
  String.mk ((pyLower s).data.filter isNormKeep)

/-- Modelled from the spec's wording of canonicalization ("stripping all
non-alphanumeric characters and lowercasing"), to compare with the code's
`norm`. -/
def specCanon (s : String) : String :=
  String.mk ((s.data.filter isAlphanumeric).map Char.toLower)

/-! ### The registry key and the hotplug event handler

`_on_device_event_async` in `scripts/aurynk_udev_proxy.py`. -/

/-- Python's `s.startswith(p)`: `p` is a prefix of `s` (character-wise
executable form). -/
def strStartsWith (s p : String) : Bool :=
  s.data.take p.data.length == p.data

/-- The key under which `_on_device_event_async` files a signal in
`self.devices`: the raw serial, unless it is empty or a `/dev/` device
path, in which case the composite `usb:<vendor>:<product>` key is used;
`none` when no usable identifier exists. -/
def deviceKey (info : DevInfo) : Option String :=
  if info.serial = "" ∨ strStartsWith info.serial "/dev/" = true then
    if pyTruthy info.vendor_id && pyTruthy info.product_id then
      some ("usb:" ++ info.vendor_id.getD "" ++ ":" ++ info.product_id.getD "")
    else none
  else some info.serial

/-- Result of one `_on_device_event_async` call: the new `self.devices`,
the new `self.last_added_device`, the broadcasts emitted, and whether an
adb rescan was scheduled. -/
structure EventResult where
  devices : Dict DevInfo
  lastAdded : Option String
  broadcasts : List Msg
  rescan : Bool
deriving DecidableEq, Repr

/-- `_on_device_event_async(info)` of `scripts/aurynk_udev_proxy.py`,
acting on `self.devices` and `self.last_added_device`. -/
def onDeviceEvent (devices : Dict DevInfo) (lastAdded : Option String)
    (info : DevInfo) : EventResult :=
  match deviceKey info with
  | none =>
      if info.action = "remove" ∨ info.action = "unbind" then
        match lastAdded with
        | some last =>
            match devices.lookup last with
            | some removedInfo =>
                ⟨devices.erase last, none,
                  [Msg.deviceEvent { removedInfo with action := "remove" }],
                  true⟩
            | none => ⟨devices, none, [Msg.deviceRemoveBare last], true⟩
        | none => ⟨devices, none, [Msg.deviceRemoveBare ""], true⟩
      else
        ⟨devices, lastAdded, [], false⟩
  | some key =>
      if info.action = "add" ∨ info.action = "bind" then
        let info' := { info with action := "add" }
        ⟨devices.insert key info', some key, [Msg.deviceEvent info'], true⟩
      else if info.action = "remove" ∨ info.action = "unbind" then
        let info' := { info with action := "remove" }
        ⟨devices.erase key, lastAdded, [Msg.deviceEvent info'], true⟩
      else
        ⟨devices, lastAdded, [], false⟩

/-! ### Bridge-scan reconciliation

`_rescan_adb` in `scripts/aurynk_udev_proxy.py` (identical in
`aurynk/tools/aurynk_udev_proxy.py`): parse `adb devices -l` output into
`new_adb`, add or update entries whose stored action is not `adb_present`,
drop `adb_present` entries that disappeared, and broadcast a `state`
message only when something changed. -/

/-- The info dict `_rescan_adb` builds for one parsed scan line:
`action = "adb_present"`, the adb serial, the trailing `k:v` properties,
and explicit `None` vendor/product ids. -/
def adbInfo (serial : String) (props : List (String × String)) : DevInfo :=
  { action := "adb_present", serial := serial, vendor_id := none,
    product_id := none, adb_props := props, properties := [] }

/-- The loop `new_adb[adb_serial] = info` over parsed scan lines. -/
def buildNewAdbGo (d : Dict DevInfo) :
    List (String × List (String × String)) → Dict DevInfo
  | [] => d
  | e :: rest => buildNewAdbGo (d.insert e.1 (adbInfo e.1 e.2)) rest

/-- The `new_adb` dict built from a parsed bridge scan (a list of
`(serial, props)` rows with status `device`). -/
def buildNewAdb (scan : List (String × List (String × String))) :
    Dict DevInfo :=
  buildNewAdbGo [] scan

/-- The action stored for a possibly-missing registry entry:
`self.devices.get(s, \x7b\x7d).get("action")`. -/
def actionOf (o : Option DevInfo) : Option String := o.map DevInfo.action

/-- First `_rescan_adb` loop: for each `(s, info)` of `new_adb`, if `s` is
absent from the registry or not stored as `adb_present`, set
`devices[s] = info` and flag `changed`. -/
def rescanAddGo : Dict DevInfo × Bool → List (String × DevInfo) →
    Dict DevInfo × Bool
  | acc, [] => acc
  | (d, c), e :: rest =>
      if actionOf (d.lookup e.1) = some "adb_present" then
        rescanAddGo (d, c) rest
      else
        rescanAddGo (d.insert e.1 e.2, true) rest

/-- Second `_rescan_adb` loop: for each key `s` of the registry snapshot,
pop `s` if it is stored as `adb_present` but absent from `new_adb`, and
flag `changed`. -/
def rescanRemoveGo (newAdb : Dict DevInfo) :
    Dict DevInfo × Bool → List String → Dict DevInfo × Bool
  | acc, [] => acc
  | (d, c), s :: rest =>
      if actionOf (d.lookup s) = some "adb_present" ∧
          newAdb.contains s = false then
        rescanRemoveGo newAdb (d.erase s, true) rest
      else
        rescanRemoveGo newAdb (d, c) rest

/-- Both `_rescan_adb` loops: returns the new registry and the `changed`
flag.  The removal loop iterates over the key snapshot
`list(self.devices.keys())` taken after the add loop. -/
def reconcileAdb (devices newAdb : Dict DevInfo) : Dict DevInfo × Bool :=
  rescanRemoveGo newAdb
    ((rescanAddGo (devices, false) newAdb).1,
      (rescanAddGo (devices, false) newAdb).2)
    ((rescanAddGo (devices, false) newAdb).1).keys

/-- One `_rescan_adb` run on a parsed scan: the new registry, plus the
`state` broadcast that is sent exactly when `changed` is true. -/
def rescanAdbResult (devices : Dict DevInfo)
    (scan : List (String × List (String × String))) :
    Dict DevInfo × List Msg :=
  ((reconcileAdb devices (buildNewAdb scan)).1,
    if (reconcileAdb devices (buildNewAdb scan)).2 then
      [Msg.stateMsg (reconcileAdb devices (buildNewAdb scan)).1.values]
    else [])

/-! ### Broadcast fan-out

`_broadcast` in `scripts/aurynk_udev_proxy.py`: serialize once, write to
every client in `self.clients`; a write or drain failure closes that
client and queues it in `to_remove`; afterwards every queued client is
discarded from the set.  Connections are modelled by naturals and the
environment decides which writes fail. -/

abbrev Conn := Nat

/-- The write loop of `_broadcast`: returns the clients the message was
delivered to and the `to_remove` list, in iteration order. -/
def broadcastRun (clients : List Conn) (fails : Conn → Bool) :
    List Conn × List Conn :=
  clients.foldl
    (fun acc w =>
      if fails w then (acc.1, acc.2 ++ [w]) else (acc.1 ++ [w], acc.2))
    ([], [])

/-- The subscriber set after `_broadcast`: every `to_remove` client is
discarded. -/
def broadcastSurvivors (clients : List Conn) (fails : Conn → Bool) :
    List Conn :=
  clients.filter (fun w => decide (w ∉ (broadcastRun clients fails).2))

/-- The per-subscriber deliveries of a broadcast of message `m`: each
successfully written client received the one serialized message. -/
def broadcastDeliveries (clients : List Conn) (fails : Conn → Bool)
    (m : Msg) : List (Conn × Msg) :=
  (broadcastRun clients fails).1.map (fun w => (w, m))

/-! ### Command router, replies, and reply normalization

`_handle_cmd`, `_handle_client` and `_send` in
`scripts/aurynk_udev_proxy.py` (identical in
`aurynk/tools/aurynk_udev_proxy.py`). -/

/-- A JSON reply object, with the keys the server ever sets.  Absent keys
are `none` (`pong` is a flag that is either present-and-true or absent). -/
structure Reply where
  code : Option Int
  status : Option String
  error : Option String
  id : Option String
  pong : Bool
  pid : Option Nat
  msgType : Option String
  devices : Option (List DevInfo)
  processes : Option (List (String × Option Nat))
  detail : Option String
deriving DecidableEq, Repr

/-- A reply with every key absent. -/
def Reply.base : Reply :=
  { code := none, status := none, error := none, id := none, pong := false,
    pid := none, msgType := none, devices := none, processes := none,
    detail := none }

/-- A parsed client request `req`: the keys `_handle_client` and
`_handle_cmd` read. -/
structure Request where
  cmd : Option String
  id : Option String
  serial : Option String
  scrcpyCmd : Option String
  extraArgs : Option (List String)
deriving DecidableEq, Repr

/-- A request with every key absent. -/
def Request.base : Request :=
  { cmd := none, id := none, serial := none, scrcpyCmd := none,
    extraArgs := none }

/-- An error reply `code 1 / status error` with the given error token. -/
def errorReply (err : String) : Reply :=
  { Reply.base with
    code := some 1
    status := some "error"
    error := some err }

/-- `_handle_cmd(req)`.  `self.processes` maps serials to child processes,
modelled by their pids.  The outcome of spawning scrcpy is the parameter
`spawn` (`some pid` on success, `none` when `create_subprocess_exec`
raises) and the outcome of terminating a process is `stopOk`; both are
decided by the environment, not the router. -/
def handleCmd (devices : Dict DevInfo) (processes : Dict Nat) (req : Request)
    (spawn : Option Nat) (stopOk : Bool) : Reply × Dict Nat :=
  if req.cmd = some "ping" then
    ({ Reply.base with code := some 0, status := some "ok", pong := true },
      processes)
  else if req.cmd = some "status" then
    ({ Reply.base with
        code := some 0
        status := some "ok"
        devices := some devices.values
        processes := some (processes.map (fun e => (e.1, some e.2))) },
      processes)
  else if req.cmd = some "start_mirror" then
    if pyTruthy req.serial = false then (errorReply "missing_serial", processes)
    else if processes.contains (req.serial.getD "") then
      (errorReply "already_running", processes)
    else
      match spawn with
      | none => (errorReply "start_failed", processes)
      | some pid =>
          ({ Reply.base with
              code := some 0
              status := some "ok"
              pid := some pid }, processes.insert (req.serial.getD "") pid)
  else if req.cmd = some "stop_mirror" then
    if pyTruthy req.serial = false then (errorReply "missing_serial", processes)
    else if processes.contains (req.serial.getD "") = false then
      (errorReply "not_running", processes)
    else if stopOk then
      ({ Reply.base with code := some 0, status := some "ok" }, processes)
    else (errorReply "stop_failed", processes)
  else (errorReply "unknown_cmd", processes)

/-- The `subscribe` special case of `_handle_client`: the reply is the
current state, tagged `state`, with the request id echoed. -/
def subscribeReply (devices : Dict DevInfo) (reqId : Option String) : Reply :=
  { Reply.base with
    code := some 0
    status := some "ok"
    msgType := some "state"
    devices := some devices.values
    id := reqId }

/-- `if "id" in req and "id" not in resp: resp["id"] = req["id"]`. -/
def echoId (rep : Reply) (reqId : Option String) : Reply :=
  match reqId, rep.id with
  | some i, none => { rep with id := some i }
  | _, _ => rep

/-- One request handled by the `_handle_client` read loop: an unparseable
line (`req = none`) yields `invalid_json`; a parsed object without `cmd`
yields `unknown_request`; `subscribe` registers the connection as a
subscriber and replies with the state; any other command goes through
`_handle_cmd` with the id echoed.  Returns the reply, the new process
map, and whether the connection became a subscriber. -/
def handleRequest (devices : Dict DevInfo) (processes : Dict Nat)
    (req : Option Request) (spawn : Option Nat) (stopOk : Bool) :
    Reply × Dict Nat × Bool :=
  match req with
  | none => (errorReply "invalid_json", processes, false)
  | some r =>
      match r.cmd with
      | none => (echoId (errorReply "unknown_request") r.id, processes, false)
      | some c =>
          if c = "subscribe" then (subscribeReply devices r.id, processes, true)
          else
            let hc := handleCmd devices processes r spawn stopOk
            (echoId hc.1 r.id, hc.2, false)

/-- `_send`'s status-to-code normalization: a reply that has a `status`
but no `code` gets `code = 0` when the status is `ok` and `code = 1`
otherwise (`setdefault("code", 1)`). -/
def sendNormalize (m : Reply) : Reply :=
  if m.code = none ∧ m.status ≠ none then
    if m.status = some "ok" then { m with code := some 0 }
    else { m with code := some 1 }
  else m

/-! ### The proxy client's request/reply matching

`UdevProxyClient.send_command` in `aurynk/services/udev_proxy_client.py`. -/

/-- Outcome of `send_command`'s read loop. -/
inductive SendResult where
  /-- a reply was returned to the caller -/
  | ok (r : Reply)
  /-- the stream ended: `RuntimeError("no response")` -/
  | errNoResponse
  /-- a matching reply had nonzero code: `RuntimeError(f"error from helper: ...")` -/
  | errHelper (e : Option String)
deriving DecidableEq, Repr

/-- The id attached to an outgoing command: the caller's, or a freshly
generated `f"\x7bint(time.time())\x7d-\x7b_REQ_COUNTER\x7d"` one. -/
def attachReqId (cmdId : Option String) (now counter : Nat) : String :=
  match cmdId with
  | some i => i
  | none => toString now ++ "-" ++ toString (counter + 1)

/-- `send_command`'s reply-reading loop over the lines that arrive on the
short-lived connection: skip replies whose id differs from the request id;
a matching reply is returned when its code is absent or 0 and raised as a
helper error otherwise; a reply with no id at all is returned as is; end
of stream raises `no response`. -/
def readReplies (reqId : String) : List Reply → SendResult
  | [] => SendResult.errNoResponse
  | r :: rest =>
      match r.id with
      | some rid =>
          if rid = reqId then
            match r.code with
            | none => SendResult.ok r
            | some c => if c = 0 then SendResult.ok r
              else SendResult.errHelper r.error
          else readReplies reqId rest
      | none => SendResult.ok r

/-! ### Lemmas about the reconciliation loops -/

/-- The value the add/update loop leaves at a key that the scan reports:
the old record survives only if it was stored as `adb_present`. -/
def addMergeValue (old : Option DevInfo) (info : DevInfo) : Option DevInfo :=
  match old with
  | some i => if i.action = "adb_present" then some i else some info
  | none => some info

/-- Combined per-key outcome of the add/update loop, as a function of the
old registry value and the scan value at that key. -/
def addedLookup (old : Option DevInfo) (scanned : Option DevInfo) :
    Option DevInfo :=
  match scanned with
  | some info => addMergeValue old info
  | none => old

theorem rescanAddGo_snd_true (L : List (String × DevInfo)) :
    ∀ d : Dict DevInfo, (rescanAddGo (d, true) L).2 = true := by
  induction L with
  | nil => intro d; rfl
  | cons e rest ih =>
      intro d
      by_cases h : actionOf (d.lookup e.1) = some "adb_present"
      · rw [rescanAddGo, if_pos h]; exact ih d
      · rw [rescanAddGo, if_neg h]; exact ih _

theorem rescanAddGo_lookup (L : List (String × DevInfo)) :
    (L.map Prod.fst).Nodup → ∀ (d : Dict DevInfo) (c : Bool) (t : String),
      ((rescanAddGo (d, c) L).1).lookup t =
        addedLookup (d.lookup t) (Dict.lookup L t) := by
  induction L with
  | nil => intro _ d c t; rfl
  | cons e rest ih =>
      intro hL d c t
      rw [List.map_cons, List.nodup_cons] at hL
      obtain ⟨he, hrest⟩ := hL
      by_cases hcond : actionOf (d.lookup e.1) = some "adb_present"
      · rw [rescanAddGo, if_pos hcond, ih hrest d c t]
        by_cases ht : e.1 = t
        · rw [Dict.lookup, if_pos ht]
          have hnone : Dict.lookup rest t = none :=
            Dict.lookup_eq_none_of_not_mem_keys
              (show t ∉ Dict.keys rest from ht ▸ he)
          rw [hnone, ← ht]
          have hct := hcond
          cases hd : d.lookup e.1 with
          | none => rw [hd] at hct; simp [actionOf] at hct
          | some i =>
              rw [hd] at hct
              simp only [actionOf] at hct
              rw [Option.map_some'] at hct
              have hia : i.action = "adb_present" := Option.some.inj hct
              simp [addedLookup, addMergeValue, hia]
        · rw [Dict.lookup, if_neg ht]
      · rw [rescanAddGo, if_neg hcond, ih hrest (d.insert e.1 e.2) true t]
        by_cases ht : e.1 = t
        · rw [Dict.lookup, if_pos ht]
          have hnone : Dict.lookup rest t = none :=
            Dict.lookup_eq_none_of_not_mem_keys
              (show t ∉ Dict.keys rest from ht ▸ he)
          rw [hnone, ← ht, Dict.lookup_insert_self]
          cases hd : d.lookup e.1 with
          | none => simp [addedLookup, addMergeValue, hd]
          | some i =>
              have hia : ¬ (i.action = "adb_present") := by
                intro hia
                exact hcond (by simp [actionOf, hd, hia])
              simp [addedLookup, addMergeValue, hd, hia]
        · rw [Dict.lookup, if_neg ht,
            Dict.lookup_insert_ne d e.2 (fun hh => ht hh.symm)]

theorem rescanAddGo_flag (L : List (String × DevInfo)) :
    ∀ (d : Dict DevInfo) (c : Bool),
      (rescanAddGo (d, c) L).2 = true ↔
        c = true ∨ ∃ e ∈ L, ¬ actionOf (d.lookup e.1) = some "adb_present" := by
  induction L with
  | nil =>
      intro d c
      rw [rescanAddGo]
      simp
  | cons e rest ih =>
      intro d c
      by_cases hcond : actionOf (d.lookup e.1) = some "adb_present"
      · rw [rescanAddGo, if_pos hcond, ih d c]
        constructor
        · intro h
          rcases h with h | ⟨x, hx, hxc⟩
          · exact Or.inl h
          · exact Or.inr ⟨x, List.mem_cons_of_mem e hx, hxc⟩
        · intro h
          rcases h with h | ⟨x, hx, hxc⟩
          · exact Or.inl h
          · rcases List.mem_cons.1 hx with hx | hx
            · exact absurd (hx ▸ hcond) hxc
            · exact Or.inr ⟨x, hx, hxc⟩
      · rw [rescanAddGo, if_neg hcond]
        constructor
        · intro _
          exact Or.inr ⟨e, List.mem_cons_self e rest, hcond⟩
        · intro _
          exact rescanAddGo_snd_true rest _

theorem rescanAddGo_noChange (L : List (String × DevInfo)) :
    ∀ (d : Dict DevInfo) (c : Bool), (rescanAddGo (d, c) L).2 = false →
      (rescanAddGo (d, c) L).1 = d := by
  induction L with
  | nil => intro d c _; rfl
  | cons e rest ih =>
      intro d c hf
      by_cases hcond : actionOf (d.lookup e.1) = some "adb_present"
      · rw [rescanAddGo, if_pos hcond] at hf ⊢
        exact ih d c hf
      · rw [rescanAddGo, if_neg hcond] at hf
        rw [rescanAddGo_snd_true rest _] at hf
        exact absurd hf (by simp)

theorem rescanAddGo_nodup (L : List (String × DevInfo)) :
    ∀ (d : Dict DevInfo) (c : Bool), d.keys.Nodup →
      ((rescanAddGo (d, c) L).1).keys.Nodup := by
  induction L with
  | nil => intro d c h; exact h
  | cons e rest ih =>
      intro d c h
      by_cases hcond : actionOf (d.lookup e.1) = some "adb_present"
      · rw [rescanAddGo, if_pos hcond]; exact ih d c h
      · rw [rescanAddGo, if_neg hcond]
        exact ih _ true (Dict.nodupKeys_insert e.1 e.2 h)

theorem rescanRemoveGo_snd_true (newAdb : Dict DevInfo) (L : List String) :
    ∀ d : Dict DevInfo, (rescanRemoveGo newAdb (d, true) L).2 = true := by
  induction L with
  | nil => intro d; rfl
  | cons s rest ih =>
      intro d
      by_cases h : actionOf (d.lookup s) = some "adb_present" ∧
          newAdb.contains s = false
      · rw [rescanRemoveGo, if_pos h]; exact ih _
      · rw [rescanRemoveGo, if_neg h]; exact ih d

theorem rescanRemoveGo_lookup (newAdb : Dict DevInfo) (L : List String) :
    L.Nodup → ∀ (d : Dict DevInfo) (c : Bool) (t : String), d.keys.Nodup →
      ((rescanRemoveGo newAdb (d, c) L).1).lookup t =
        if t ∈ L ∧ actionOf (d.lookup t) = some "adb_present" ∧
            newAdb.contains t = false
        then none else d.lookup t := by
  induction L with
  | nil =>
      intro _ d c t _
      rw [rescanRemoveGo]
      simp
  | cons s rest ih =>
      intro hL d c t hd
      rw [List.nodup_cons] at hL
      obtain ⟨hs, hrest⟩ := hL
      by_cases hcond : actionOf (d.lookup s) = some "adb_present" ∧
          newAdb.contains s = false
      · rw [rescanRemoveGo, if_pos hcond,
          ih hrest (d.erase s) true t (Dict.nodupKeys_erase s hd)]
        by_cases ht : t = s
        · have htr : t ∉ rest := ht ▸ hs
          rw [if_neg (fun hc => htr hc.1), ht, Dict.lookup_erase_self s hd,
            if_pos ⟨List.mem_cons_self s rest, ht ▸ hcond⟩]
        · rw [Dict.lookup_erase_ne d ht]
          by_cases hmem : t ∈ rest ∧ actionOf (d.lookup t) = some "adb_present" ∧
              newAdb.contains t = false
          · rw [if_pos hmem,
              if_pos ⟨List.mem_cons_of_mem s hmem.1, hmem.2⟩]
          · rw [if_neg hmem, if_neg (fun hc => hmem ⟨(List.mem_cons.1 hc.1).resolve_left ht, hc.2⟩)]
      · rw [rescanRemoveGo, if_neg hcond, ih hrest d c t hd]
        by_cases ht : t = s
        · rw [if_neg (fun hc : t ∈ rest ∧ _ => (ht ▸ hs : t ∉ rest) hc.1),
            if_neg (fun hc => hcond (ht ▸ hc.2))]
        · by_cases hmem : t ∈ rest ∧ actionOf (d.lookup t) = some "adb_present" ∧
              newAdb.contains t = false
          · rw [if_pos hmem, if_pos ⟨List.mem_cons_of_mem s hmem.1, hmem.2⟩]
          · rw [if_neg hmem, if_neg (fun hc => hmem ⟨(List.mem_cons.1 hc.1).resolve_left ht, hc.2⟩)]

theorem rescanRemoveGo_flag (newAdb : Dict DevInfo) (L : List String) :
    ∀ (d : Dict DevInfo) (c : Bool),
      (rescanRemoveGo newAdb (d, c) L).2 = true ↔
        c = true ∨ ∃ s ∈ L, actionOf (d.lookup s) = some "adb_present" ∧
          newAdb.contains s = false := by
  induction L with
  | nil =>
      intro d c
      rw [rescanRemoveGo]
      simp
  | cons s rest ih =>
      intro d c
      by_cases hcond : actionOf (d.lookup s) = some "adb_present" ∧
          newAdb.contains s = false
      · rw [rescanRemoveGo, if_pos hcond]
        constructor
        · intro _
          exact Or.inr ⟨s, List.mem_cons_self s rest, hcond⟩
        · intro _
          exact rescanRemoveGo_snd_true newAdb rest _
      · rw [rescanRemoveGo, if_neg hcond, ih d c]
        constructor
        · intro h
          rcases h with h | ⟨x, hx, hxc⟩
          · exact Or.inl h
          · exact Or.inr ⟨x, List.mem_cons_of_mem s hx, hxc⟩
        · intro h
          rcases h with h | ⟨x, hx, hxc⟩
          · exact Or.inl h
          · rcases List.mem_cons.1 hx with hx | hx
            · exact absurd (hx ▸ hxc) hcond
            · exact Or.inr ⟨x, hx, hxc⟩

theorem rescanRemoveGo_noChange (newAdb : Dict DevInfo) (L : List String) :
    ∀ (d : Dict DevInfo) (c : Bool),
      (rescanRemoveGo newAdb (d, c) L).2 = false →
        (rescanRemoveGo newAdb (d, c) L).1 = d := by
  induction L with
  | nil => intro d c _; rfl
  | cons s rest ih =>
      intro d c hf
      by_cases hcond : actionOf (d.lookup s) = some "adb_present" ∧
          newAdb.contains s = false
      · rw [rescanRemoveGo, if_pos hcond] at hf
        rw [rescanRemoveGo_snd_true newAdb rest _] at hf
        exact absurd hf (by simp)
      · rw [rescanRemoveGo, if_neg hcond] at hf ⊢
        exact ih d c hf

theorem rescanRemoveGo_nodup (newAdb : Dict DevInfo) (L : List String) :
    ∀ (d : Dict DevInfo) (c : Bool), d.keys.Nodup →
      ((rescanRemoveGo newAdb (d, c) L).1).keys.Nodup := by
  induction L with
  | nil => intro d c h; exact h
  | cons s rest ih =>
      intro d c h
      by_cases hcond : actionOf (d.lookup s) = some "adb_present" ∧
          newAdb.contains s = false
      · rw [rescanRemoveGo, if_pos hcond]
        exact ih _ true (Dict.nodupKeys_erase s h)
      · rw [rescanRemoveGo, if_neg hcond]
        exact ih d c h

theorem buildNewAdbGo_shape
    (scan : List (String × List (String × String))) :
    ∀ d : Dict DevInfo,
      (∀ s i, d.lookup s = some i → ∃ p, i = adbInfo s p) →
      ∀ s i, (buildNewAdbGo d scan).lookup s = some i → ∃ p, i = adbInfo s p := by
  induction scan with
  | nil => intro d h; exact h
  | cons e rest ih =>
      intro d h
      rw [buildNewAdbGo]
      refine ih _ ?_
      intro s i hl
      by_cases hs : s = e.1
      · rw [hs, Dict.lookup_insert_self] at hl
        exact ⟨e.2, (Option.some.injEq _ _ ▸ hl.symm) ▸ (hs ▸ rfl)⟩
      · rw [Dict.lookup_insert_ne d _ hs] at hl
        exact h s i hl

theorem buildNewAdb_shape (scan : List (String × List (String × String)))
    (s : String) (i : DevInfo) (h : (buildNewAdb scan).lookup s = some i) :
    ∃ p, i = adbInfo s p := by
  refine buildNewAdbGo_shape scan [] ?_ s i h
  intro s i hl
  cases hl

theorem buildNewAdbGo_nodup (scan : List (String × List (String × String))) :
    ∀ d : Dict DevInfo, d.keys.Nodup → (buildNewAdbGo d scan).keys.Nodup := by
  induction scan with
  | nil => intro d h; exact h
  | cons e rest ih =>
      intro d h
      rw [buildNewAdbGo]
      exact ih _ (Dict.nodupKeys_insert e.1 _ h)

theorem buildNewAdb_nodup (scan : List (String × List (String × String))) :
    (buildNewAdb scan).keys.Nodup :=
  buildNewAdbGo_nodup scan [] List.nodup_nil

theorem buildNewAdbGo_contains
    (scan : List (String × List (String × String))) :
    ∀ (d : Dict DevInfo) (s : String),
      s ∈ scan.map Prod.fst ∨ d.contains s = true →
        (buildNewAdbGo d scan).contains s = true := by
  induction scan with
  | nil =>
      intro d s h
      rcases h with h | h
      · exact absurd h (List.not_mem_nil s)
      · exact h
  | cons e rest ih =>
      intro d s h
      rw [buildNewAdbGo]
      by_cases hs : s = e.1
      · refine ih _ s (Or.inr ?_)
        rw [Dict.contains, hs, Dict.lookup_insert_self]
        rfl
      · rcases h with h | h
        · rcases List.mem_cons.1 (List.map_cons Prod.fst e rest ▸ h) with h | h
          · exact absurd h hs
          · exact ih _ s (Or.inl h)
        · refine ih _ s (Or.inr ?_)
          rw [Dict.contains, Dict.lookup_insert_ne d _ hs]
          exact h

theorem buildNewAdb_contains (scan : List (String × List (String × String)))
    (s : String) (h : s ∈ scan.map Prod.fst) :
    (buildNewAdb scan).contains s = true :=
  buildNewAdbGo_contains scan [] s (Or.inl h)

theorem Dict.lookup_eq_of_mem_nodup {α : Type} {d : Dict α} {k : String}
    {v : α} (hnd : d.keys.Nodup) (hm : (k, v) ∈ d) : d.lookup k = some v := by
  induction d with
  | nil => cases hm
  | cons e rest ih =>
      rw [Dict.keys, List.map_cons, List.nodup_cons] at hnd
      rcases List.mem_cons.1 hm with hm | hm
      · subst hm
        rw [Dict.lookup, if_pos rfl]
      · have hk : k ∈ Dict.keys rest := List.mem_map.2 ⟨(k, v), hm, rfl⟩
        have he1 : ¬ e.1 = k := fun h => hnd.1 (h ▸ hk)
        rw [Dict.lookup, if_neg he1]
        exact ih hnd.2 hm

theorem Dict.contains_eq_false_iff {α : Type} (d : Dict α) (t : String) :
    d.contains t = false ↔ d.lookup t = none := by
  rw [Dict.contains]
  cases d.lookup t <;> simp

theorem Dict.contains_of_lookup_some {α : Type} {d : Dict α} {t : String}
    {v : α} (h : d.lookup t = some v) : d.contains t = true := by
  rw [Dict.contains, h]
  rfl

theorem Dict.contains_iff_mem_keys {α : Type} (d : Dict α) (t : String) :
    d.contains t = true ↔ t ∈ d.keys := by
  rw [Dict.contains]
  exact Dict.lookup_isSome_iff_mem_keys d t

theorem rescanAddGo_noop (L : List (String × DevInfo)) :
    ∀ (d : Dict DevInfo) (c : Bool),
      (∀ e ∈ L, actionOf (d.lookup e.1) = some "adb_present") →
        rescanAddGo (d, c) L = (d, c) := by
  induction L with
  | nil => intro d c _; rfl
  | cons e rest ih =>
      intro d c h
      rw [rescanAddGo, if_pos (h e (List.mem_cons_self e rest))]
      exact ih d c (fun x hx => h x (List.mem_cons_of_mem e hx))

theorem rescanRemoveGo_noop (newAdb : Dict DevInfo) (L : List String) :
    ∀ (d : Dict DevInfo) (c : Bool),
      (∀ s ∈ L, ¬ (actionOf (d.lookup s) = some "adb_present" ∧
        newAdb.contains s = false)) →
        rescanRemoveGo newAdb (d, c) L = (d, c) := by
  induction L with
  | nil => intro d c _; rfl
  | cons s rest ih =>
      intro d c h
      rw [rescanRemoveGo, if_neg (h s (List.mem_cons_self s rest))]
      exact ih d c (fun x hx => h x (List.mem_cons_of_mem s hx))

/-- Per-key characterization of a full `_rescan_adb` reconciliation. -/
theorem reconcileAdb_lookup (devices newAdb : Dict DevInfo)
    (hnd : devices.keys.Nodup) (hna : newAdb.keys.Nodup) (t : String) :
    (reconcileAdb devices newAdb).1.lookup t =
      if actionOf (addedLookup (devices.lookup t) (newAdb.lookup t)) =
            some "adb_present" ∧ newAdb.contains t = false
      then none
      else addedLookup (devices.lookup t) (newAdb.lookup t) := by
  have hAnodup : ((rescanAddGo (devices, false) newAdb).1).keys.Nodup :=
    rescanAddGo_nodup newAdb devices false hnd
  have hchar := rescanAddGo_lookup newAdb hna devices false
  have hrem := rescanRemoveGo_lookup newAdb
    ((rescanAddGo (devices, false) newAdb).1).keys hAnodup
    (rescanAddGo (devices, false) newAdb).1
    (rescanAddGo (devices, false) newAdb).2 t hAnodup
  rw [reconcileAdb, hrem, hchar t]
  by_cases hx : actionOf (addedLookup (devices.lookup t) (newAdb.lookup t)) =
      some "adb_present" ∧ newAdb.contains t = false
  · have hsome : ((rescanAddGo (devices, false) newAdb).1.lookup t).isSome
        = true := by
      rw [hchar t]
      cases hv : addedLookup (devices.lookup t) (newAdb.lookup t) with
      | none =>
          rw [hv] at hx
          simp [actionOf] at hx
      | some w => rfl
    have hmem := (Dict.lookup_isSome_iff_mem_keys _ t).1 hsome
    rw [if_pos hx, if_pos ⟨hmem, hx.1, hx.2⟩]
  · rw [if_neg hx, if_neg (fun hc => hx ⟨hc.2.1, hc.2.2⟩)]

theorem reconcileAdb_nodup (devices newAdb : Dict DevInfo)
    (hnd : devices.keys.Nodup) :
    (reconcileAdb devices newAdb).1.keys.Nodup := by
  rw [reconcileAdb]
  exact rescanRemoveGo_nodup newAdb _ _ _
    (rescanAddGo_nodup newAdb devices false hnd)

/-- After a reconciliation, every serial the scan reported is present with
an `adb_present` record. -/
theorem reconcileAdb_lookup_of_scanned (devices newAdb : Dict DevInfo)
    (hnd : devices.keys.Nodup) (hna : newAdb.keys.Nodup)
    (hshape : ∀ s i, newAdb.lookup s = some i → i.action = "adb_present")
    (s : String) (hs : s ∈ newAdb.keys) :
    ∃ i, (reconcileAdb devices newAdb).1.lookup s = some i ∧
      i.action = "adb_present" := by
  have hsome := (Dict.lookup_isSome_iff_mem_keys newAdb s).2 hs
  cases hv : newAdb.lookup s with
  | none => rw [hv] at hsome; cases hsome
  | some v =>
      have hva := hshape s v hv
      have hcont : newAdb.contains s = true := Dict.contains_of_lookup_some hv
      rw [reconcileAdb_lookup devices newAdb hnd hna s,
        if_neg (fun hc => by rw [hcont] at hc; cases hc.2)]
      rw [hv]
      cases hd : devices.lookup s with
      | none => exact ⟨v, by simp [addedLookup, addMergeValue], hva⟩
      | some i =>
          by_cases hia : i.action = "adb_present"
          · exact ⟨i, by simp [addedLookup, addMergeValue, hia], hia⟩
          · exact ⟨v, by simp [addedLookup, addMergeValue, hia], hva⟩

/-- After a reconciliation, every record still stored as `adb_present` is
one the scan reported. -/
theorem reconcileAdb_adb_present_mem (devices newAdb : Dict DevInfo)
    (hnd : devices.keys.Nodup) (hna : newAdb.keys.Nodup) (t : String)
    (i : DevInfo) (hl : (reconcileAdb devices newAdb).1.lookup t = some i)
    (hia : i.action = "adb_present") : newAdb.contains t = true := by
  by_cases hc : newAdb.contains t = true
  · exact hc
  · have hcf : newAdb.contains t = false := by
      cases hcc : newAdb.contains t
      · rfl
      · exact absurd hcc hc
    rw [reconcileAdb_lookup devices newAdb hnd hna t] at hl
    by_cases hx : actionOf (addedLookup (devices.lookup t) (newAdb.lookup t)) =
        some "adb_present"
    · rw [if_pos ⟨hx, hcf⟩] at hl
      cases hl
    · rw [if_neg (fun hc' => hx hc'.1)] at hl
      exact absurd (by rw [hl]; simp [actionOf, hia]) hx

/-- Reconciling a registry that has already absorbed the same scan changes
nothing and does not set the `changed` flag. -/
theorem reconcileAdb_self (devices newAdb : Dict DevInfo)
    (hnd : devices.keys.Nodup) (hna : newAdb.keys.Nodup)
    (hshape : ∀ s i, newAdb.lookup s = some i → i.action = "adb_present") :
    reconcileAdb (reconcileAdb devices newAdb).1 newAdb =
      ((reconcileAdb devices newAdb).1, false) := by
  have hd1nd : (reconcileAdb devices newAdb).1.keys.Nodup :=
    reconcileAdb_nodup devices newAdb hnd
  have haddnoop :
      rescanAddGo ((reconcileAdb devices newAdb).1, false) newAdb =
        ((reconcileAdb devices newAdb).1, false) := by
    refine rescanAddGo_noop newAdb _ false ?_
    intro e he
    have hsk : e.1 ∈ newAdb.keys := List.mem_map.2 ⟨e, he, rfl⟩
    obtain ⟨i, hl, hia⟩ :=
      reconcileAdb_lookup_of_scanned devices newAdb hnd hna hshape e.1 hsk
    rw [hl]
    simp [actionOf, hia]
  rw [reconcileAdb, haddnoop]
  refine rescanRemoveGo_noop newAdb _ _ false ?_
  intro s _ hcon
  cases hv : (reconcileAdb devices newAdb).1.lookup s with
  | none =>
      rw [hv] at hcon
      simp [actionOf] at hcon
  | some i =>
      rw [hv] at hcon
      have hia : i.action = "adb_present" := by
        have := hcon.1
        simp only [actionOf, Option.map_some'] at this
        exact Option.some.inj this
      have hct := reconcileAdb_adb_present_mem devices newAdb hnd hna s i hv hia
      rw [hct] at hcon
      cases hcon.2

/-- The `changed` flag of a reconciliation is set exactly when the
registry actually changed. -/
theorem reconcileAdb_changed_iff (devices newAdb : Dict DevInfo)
    (hnd : devices.keys.Nodup) (hna : newAdb.keys.Nodup)
    (hshape : ∀ s i, newAdb.lookup s = some i → i.action = "adb_present") :
    (reconcileAdb devices newAdb).2 = true ↔
      (reconcileAdb devices newAdb).1 ≠ devices := by
  constructor
  · intro hc1
    rw [reconcileAdb] at hc1
    rw [rescanRemoveGo_flag newAdb _ _ _] at hc1
    rcases hc1 with hcA | ⟨s, _, hsa, hsc⟩
    · rw [rescanAddGo_flag newAdb devices false] at hcA
      rcases hcA with h | ⟨e, he, hec⟩
      · cases h
      · have hlv : newAdb.lookup e.1 = some e.2 :=
          Dict.lookup_eq_of_mem_nodup hna he
        have hva : e.2.action = "adb_present" := hshape e.1 e.2 hlv
        have hcont : newAdb.contains e.1 = true :=
          Dict.contains_of_lookup_some hlv
        have hl1 : (reconcileAdb devices newAdb).1.lookup e.1 =
            addedLookup (devices.lookup e.1) (newAdb.lookup e.1) := by
          rw [reconcileAdb_lookup devices newAdb hnd hna e.1,
            if_neg (fun hc => by rw [hcont] at hc; cases hc.2)]
        intro heq
        have hsame : (reconcileAdb devices newAdb).1.lookup e.1 =
            devices.lookup e.1 := by rw [heq]
        rw [hl1, hlv] at hsame
        cases hd : devices.lookup e.1 with
        | none =>
            rw [hd] at hsame
            simp [addedLookup, addMergeValue] at hsame
        | some i =>
            have hia : ¬ i.action = "adb_present" := by
              intro hia
              exact hec (by simp [actionOf, hd, hia])
            rw [hd] at hsame
            simp only [addedLookup, addMergeValue, if_neg hia,
              Option.some.injEq] at hsame
            exact hia (hsame ▸ hva)
    · have hchar := rescanAddGo_lookup newAdb hna devices false
      have hnal : newAdb.lookup s = none :=
        (Dict.contains_eq_false_iff newAdb s).1 hsc
      rw [hchar s, hnal] at hsa
      have hsa' : actionOf (devices.lookup s) = some "adb_present" := by
        simpa [addedLookup] using hsa
      cases hd : devices.lookup s with
      | none => rw [hd] at hsa'; simp [actionOf] at hsa'
      | some i =>
          have hl1 : (reconcileAdb devices newAdb).1.lookup s = none := by
            rw [reconcileAdb_lookup devices newAdb hnd hna s,
              if_pos ⟨by rw [hnal]; simpa [addedLookup] using hsa', hsc⟩]
          intro heq
          have hsame : (reconcileAdb devices newAdb).1.lookup s =
              devices.lookup s := by rw [heq]
          rw [hl1, hd] at hsame
          cases hsame
  · intro hne
    cases hc1 : (reconcileAdb devices newAdb).2 with
    | true => rfl
    | false =>
        exfalso
        apply hne
        rw [reconcileAdb] at hc1 ⊢
        cases hcA : (rescanAddGo (devices, false) newAdb).2 with
        | true =>
            rw [hcA] at hc1
            rw [rescanRemoveGo_snd_true newAdb _ _] at hc1
            cases hc1
        | false =>
            rw [hcA] at hc1
            have hdA : (rescanAddGo (devices, false) newAdb).1 = devices :=
              rescanAddGo_noChange newAdb devices false hcA
            rw [rescanRemoveGo_noChange newAdb _ _ _ hc1]
            exact hdA

theorem Dict.erase_eq_of_lookup_none {α : Type} {d : Dict α} {k : String}
    (h : d.lookup k = none) : d.erase k = d := by
  induction d with
  | nil => rfl
  | cons e rest ih =>
      rw [Dict.lookup] at h
      by_cases he : e.1 = k
      · rw [if_pos he] at h
        cases h
      · rw [if_neg he] at h
        rw [Dict.erase, if_neg he, ih h]

/-- A reply that already carries a `code` passes through `_send`'s
normalization untouched. -/
theorem sendNormalize_of_code_some (m : Reply) (h : m.code ≠ none) :
    sendNormalize m = m := by
  rw [sendNormalize, if_neg (fun hc => h hc.1)]

/-- Every reply `_handle_cmd` produces carries both `code` and `status`,
and `code = 0` exactly when `status = "ok"`. -/
theorem handleCmd_code_status (devices : Dict DevInfo) (processes : Dict Nat)
    (req : Request) (spawn : Option Nat) (stopOk : Bool) :
    ((handleCmd devices processes req spawn stopOk).1.code = some 0 ↔
      (handleCmd devices processes req spawn stopOk).1.status = some "ok") ∧
    (handleCmd devices processes req spawn stopOk).1.code ≠ none ∧
    (handleCmd devices processes req spawn stopOk).1.status ≠ none := by
  rw [handleCmd.eq_def]
  repeat' split
  all_goals simp [errorReply, Reply.base]

/-- `_handle_cmd` keeps the process map's keys unique: the only mutation
is a dict insertion. -/
theorem handleCmd_nodup (devices : Dict DevInfo) (processes : Dict Nat)
    (req : Request) (spawn : Option Nat) (stopOk : Bool)
    (h : processes.keys.Nodup) :
    ((handleCmd devices processes req spawn stopOk).2).keys.Nodup := by
  rw [handleCmd.eq_def]
  repeat' split
  all_goals first
    | exact h
    | exact Dict.nodupKeys_insert _ _ h

/-! ### Lemmas about the broadcast fan-out and the serial normalizer -/

theorem broadcastRun_eq (clients : List Conn) (fails : Conn → Bool) :
    broadcastRun clients fails =
      (clients.filter (fun w => !(fails w)), clients.filter fails) := by
  suffices h : ∀ a b : List Conn,
      clients.foldl
        (fun acc w =>
          if fails w then (acc.1, acc.2 ++ [w]) else (acc.1 ++ [w], acc.2))
        (a, b) =
      (a ++ clients.filter (fun w => !(fails w)), b ++ clients.filter fails) by
    have h0 := h [] []
    rw [broadcastRun, h0]
    simp
  induction clients with
  | nil => intro a b; simp
  | cons w rest ih =>
      intro a b
      cases hw : fails w with
      | true =>
          rw [List.foldl_cons, if_pos hw, ih a (b ++ [w]),
            List.filter_cons, List.filter_cons, hw]
          simp
      | false =>
          rw [List.foldl_cons, if_neg (by rw [hw]; exact Bool.false_ne_true),
            ih (a ++ [w]) b, List.filter_cons, List.filter_cons, hw]
          simp

theorem isNormKeep_toLower (c : Char) :
    isNormKeep c.toLower = isAlphanumeric c := by
  by_cases h : c.toNat ≥ 65 ∧ c.toNat ≤ 90
  · simp only [Char.toLower, if_pos h]
    simp only [isNormKeep, isAlphanumeric]
    obtain ⟨h1, h2⟩ := h
    generalize c.toNat = n at h1 h2 ⊢
    interval_cases n <;> decide
  · simp only [Char.toLower, if_neg h]
    simp only [isNormKeep, isAlphanumeric, decide_eq_decide]
    omega

/-- The code's `_norm` body computes exactly the spec's canonicalization:
strip all non-alphanumeric characters and lowercase. -/
theorem norm_eq_specCanon (s : String) : norm s = specCanon s := by
  have hdata : (pyLower s).data = s.data.map Char.toLower := rfl
  rw [norm, specCanon, hdata, List.filter_map]
  congr 1
  refine congrArg (List.map Char.toLower) (List.filter_congr ?_)
  intro c _
  exact isNormKeep_toLower c

/-! ### Concrete sample inputs used by counterexamples and witnesses -/

/-- A hotplug `add` signal carrying only a serial. -/
def mkAddInfo (s : String) : DevInfo :=
  { action := "add", serial := s, vendor_id := none, product_id := none,
    adb_props := [], properties := [] }

/-- A hotplug `add` signal with serial, vendor/product ids and raw udev
properties. -/
def hotplugSample : DevInfo :=
  { action := "add", serial := "S1", vendor_id := some "04e8",
    product_id := some "6860", adb_props := [],
    properties := [("ID_VENDOR_ID", "04e8")] }

/-- An `add` signal whose serial is a `/dev/` device path but which has
vendor and product ids. -/
def devPathSample : DevInfo :=
  { action := "add", serial := "/dev/bus/usb/001/002",
    vendor_id := some "04e8", product_id := some "6860", adb_props := [],
    properties := [] }

/-- An `add` signal with no usable identifier: empty serial, missing
product id. -/
def anonymousAdd : DevInfo :=
  { action := "add", serial := "", vendor_id := some "04e8",
    product_id := none, adb_props := [], properties := [] }

/-- A `remove` signal with no identifier at all. -/
def anonymousRemove : DevInfo :=
  { action := "remove", serial := "", vendor_id := none, product_id := none,
    adb_props := [], properties := [] }

/-- A broadcast-style `state` message that carries no request id. -/
def noIdStateReply : Reply := { Reply.base with msgType := some "state" }

/-- A successful reply correlated to some other request. -/
def otherIdReply : Reply :=
  { Reply.base with id := some "7", code := some 0 }

/-- A successful reply correlated to request id `42`. -/
def matchingReply : Reply :=
  { Reply.base with id := some "42", code := some 0, pong := true }

/-! ### Claims -/

/-- C1 counterexample: `AB-C` and `abc` are equal after stripping
punctuation and lowercasing (`norm` collapses them), yet feeding both to
the server's hotplug handler leaves two separate records under the two
distinct raw-serial keys, not one. -/
theorem C1_counterexample :
    norm "AB-C" = norm "abc" ∧
    (onDeviceEvent (onDeviceEvent [] none (mkAddInfo "AB-C")).devices
        (onDeviceEvent [] none (mkAddInfo "AB-C")).lastAdded
        (mkAddInfo "abc")).devices.keys = ["AB-C", "abc"] := by
  exact ⟨by decide, by decide⟩

/-- C1 (amended): stripping all non-alphanumeric characters and
lowercasing identifies cosmetically different serials, and the code's
`_norm` normalizer computes exactly that — but this normalization lives in
the client-side tray canonicalizer, not in the server registry: the server
keys its device map by the raw serial whenever the serial is non-empty and
not a `/dev/` path, so punctuation/case variants occupy distinct registry
keys. -/
theorem C1_canonicalization_is_client_side (s1 s2 : String) (info : DevInfo)
    (h : specCanon s1 = specCanon s2) (hs : info.serial ≠ "")
    (hd : strStartsWith info.serial "/dev/" = false) :
    norm s1 = norm s2 ∧ deviceKey info = some info.serial := by
  constructor
  · rw [norm_eq_specCanon, norm_eq_specCanon, h]
  · rw [deviceKey, if_neg]
    intro hc
    rcases hc with hc | hc
    · exact hs hc
    · rw [hd] at hc
      cases hc

/-- C1 witness: the amended claim at the concrete serials `AB-C` / `abc`
and a concrete hotplug signal. -/
theorem C1_witness :
    norm "AB-C" = norm "abc" ∧
    deviceKey (mkAddInfo "TEST1234") = some (mkAddInfo "TEST1234").serial :=
  C1_canonicalization_is_client_side "AB-C" "abc" (mkAddInfo "TEST1234")
    (by decide) (by decide) (by decide)

/-- C2 counterexample: a hotplug record for serial `S1` with vendor id and
raw properties is replaced wholesale when a bridge scan reports `S1`: the
resulting record is exactly the scan's `adb_present` info, with the
hotplug-only `vendor_id` and `properties` gone. -/
theorem C2_counterexample :
    (reconcileAdb [("S1", hotplugSample)]
        (buildNewAdb [("S1", [("model", "SM")])])).1 =
      [("S1", adbInfo "S1" [("model", "SM")])] ∧
    hotplugSample.vendor_id = some "04e8" ∧
    (adbInfo "S1" [("model", "SM")]).vendor_id = none ∧
    hotplugSample.properties ≠ [] ∧
    (adbInfo "S1" [("model", "SM")]).properties = [] := by
  exact ⟨by decide, rfl, rfl, by decide, rfl⟩

/-- C2 (amended): when a bridge scan reports the serial of a
hotplug-origin record, reconciliation does not merge: it overwrites the
record with the scan's entry, so the transport origin does become `bridge`
(`adb_present`), but the hotplug-only fields are dropped — `vendor_id` and
`product_id` become `none` and the raw properties become empty. -/
theorem C2_bridge_scan_replaces_record (devices : Dict DevInfo)
    (scan : List (String × List (String × String))) (s : String)
    (i : DevInfo) (hnd : devices.keys.Nodup) (hi : devices.lookup s = some i)
    (hact : i.action ≠ "adb_present") (hs : s ∈ scan.map Prod.fst) :
    ∃ p, (reconcileAdb devices (buildNewAdb scan)).1.lookup s =
        some (adbInfo s p) ∧
      (adbInfo s p).action = "adb_present" ∧
      (adbInfo s p).vendor_id = none ∧
      (adbInfo s p).product_id = none ∧
      (adbInfo s p).properties = [] := by
  have hna := buildNewAdb_nodup scan
  have hc : (buildNewAdb scan).contains s = true :=
    buildNewAdb_contains scan s hs
  cases hv : (buildNewAdb scan).lookup s with
  | none => rw [Dict.contains, hv] at hc; cases hc
  | some v =>
      obtain ⟨p, hp⟩ := buildNewAdb_shape scan s v hv
      refine ⟨p, ?_, rfl, rfl, rfl, rfl⟩
      rw [reconcileAdb_lookup devices (buildNewAdb scan) hnd hna s,
        if_neg (fun hcc => by rw [hc] at hcc; cases hcc.2), hi, hv, hp]
      simp [addedLookup, addMergeValue, hact]

/-- C2 witness: the amended claim at a concrete hotplug record and a
concrete one-line scan. -/
theorem C2_witness :
    ∃ p, (reconcileAdb [("S1", hotplugSample)]
        (buildNewAdb [("S1", [("model", "SM")])])).1.lookup "S1" =
          some (adbInfo "S1" p) ∧
      (adbInfo "S1" p).action = "adb_present" ∧
      (adbInfo "S1" p).vendor_id = none ∧
      (adbInfo "S1" p).product_id = none ∧
      (adbInfo "S1" p).properties = [] :=
  C2_bridge_scan_replaces_record [("S1", hotplugSample)]
    [("S1", [("model", "SM")])] "S1" hotplugSample (by decide) (by decide)
    (by decide) (by decide)

/-- C3: bridge-scan reconciliation is idempotent: after one application
each scanned serial has exactly one record; the `state` broadcast is
emitted exactly when the registry diff is non-empty; and re-applying the
same scan returns the same registry and emits no broadcast. -/
theorem C3_bridge_rescan_idempotent (devices : Dict DevInfo)
    (scan : List (String × List (String × String)))
    (hnd : devices.keys.Nodup) :
    (∀ s ∈ scan.map Prod.fst,
      ((rescanAdbResult devices scan).1).keys.count s = 1) ∧
    ((rescanAdbResult devices scan).2 ≠ [] ↔
      (rescanAdbResult devices scan).1 ≠ devices) ∧
    rescanAdbResult (rescanAdbResult devices scan).1 scan =
      ((rescanAdbResult devices scan).1, []) := by
  have hna : (buildNewAdb scan).keys.Nodup := buildNewAdb_nodup scan
  have hshape : ∀ s i, (buildNewAdb scan).lookup s = some i →
      i.action = "adb_present" := by
    intro s i h
    obtain ⟨p, hp⟩ := buildNewAdb_shape scan s i h
    rw [hp]
    rfl
  refine ⟨?_, ?_, ?_⟩
  · intro s hs
    have hc : (buildNewAdb scan).contains s = true :=
      buildNewAdb_contains scan s hs
    have hk : s ∈ (buildNewAdb scan).keys :=
      (Dict.contains_iff_mem_keys _ s).1 hc
    obtain ⟨i, hl, _⟩ := reconcileAdb_lookup_of_scanned devices
      (buildNewAdb scan) hnd hna hshape s hk
    exact List.count_eq_one_of_mem
      (reconcileAdb_nodup devices (buildNewAdb scan) hnd)
      (Dict.mem_keys_of_lookup_some hl)
  · have hiff := reconcileAdb_changed_iff devices (buildNewAdb scan) hnd hna
      hshape
    show (if (reconcileAdb devices (buildNewAdb scan)).2 then
        [Msg.stateMsg (reconcileAdb devices (buildNewAdb scan)).1.values]
      else []) ≠ [] ↔ _
    cases hc : (reconcileAdb devices (buildNewAdb scan)).2 with
    | false =>
        rw [hc] at hiff
        simp only [Bool.false_eq_true, false_iff] at hiff
        simp only [Bool.false_eq_true, if_false, ne_eq, not_true_eq_false,
          false_iff, not_not]
        exact not_not.mp hiff
    | true =>
        rw [hc] at hiff
        simp only [true_iff] at hiff
        simp only [if_true, ne_eq, true_iff]
        constructor
        · intro _
          exact hiff
        · intro _
          simp
  · have hself := reconcileAdb_self devices (buildNewAdb scan) hnd hna hshape
    show rescanAdbResult (reconcileAdb devices (buildNewAdb scan)).1 scan = _
    rw [rescanAdbResult, hself]
    rfl

/-- C3 witness: the idempotence conclusion at the empty registry and a
one-line scan. -/
theorem C3_witness :
    rescanAdbResult (rescanAdbResult [] [("X", [])]).1 [("X", [])] =
      ((rescanAdbResult [] [("X", [])]).1, []) :=
  (C3_bridge_rescan_idempotent [] [("X", [])] (by decide)).2.2

/-- C4 counterexample: an add signal whose non-empty serial is the device
path `/dev/bus/usb/001/002` (with vendor/product ids) is processed — it is
broadcast with that serial — but the serial itself is not added to the
device map: the record is keyed `usb:04e8:6860`. -/
theorem C4_counterexample :
    (onDeviceEvent [] none devPathSample).broadcasts =
      [Msg.deviceEvent { devPathSample with action := "add" }] ∧
    devPathSample.serial ≠ "" ∧
    (onDeviceEvent [] none devPathSample).devices.lookup
      devPathSample.serial = none ∧
    (onDeviceEvent [] none devPathSample).devices.keys =
      ["usb:04e8:6860"] := by
  exact ⟨by decide, by decide, by decide, by decide⟩

/-- C4 (amended): for every hotplug add or bind signal whose non-empty
serial is not a `/dev/` device path, the server stores the signal under
the serial itself with the action normalized to `add`, records it as most
recently added, and broadcasts one `device`/`add` message carrying that
serial, which the fan-out delivers to every subscriber whose write
succeeds; a connection that sent `subscribe` receives one `state` reply
listing the current devices and becomes a subscriber. -/
theorem C4_hotplug_add_stored_and_broadcast (devices : Dict DevInfo)
    (la : Option String) (info : DevInfo) (subs : List Conn)
    (procs : Dict Nat) (rid : Option String) (spawn : Option Nat)
    (stopOk : Bool) (ha : info.action = "add" ∨ info.action = "bind")
    (hs : info.serial ≠ "") (hd : strStartsWith info.serial "/dev/" = false) :
    (onDeviceEvent devices la info).devices.lookup info.serial =
      some { info with action := "add" } ∧
    (onDeviceEvent devices la info).lastAdded = some info.serial ∧
    (onDeviceEvent devices la info).broadcasts =
      [Msg.deviceEvent { info with action := "add" }] ∧
    broadcastDeliveries subs (fun _ => false)
        (Msg.deviceEvent { info with action := "add" }) =
      subs.map (fun c => (c, Msg.deviceEvent { info with action := "add" })) ∧
    handleRequest devices procs
        (some { Request.base with cmd := some "subscribe", id := rid })
        spawn stopOk = (subscribeReply devices rid, procs, true) ∧
    (subscribeReply devices rid).msgType = some "state" ∧
    (subscribeReply devices rid).devices = some devices.values := by
  have hkey : deviceKey info = some info.serial := by
    rw [deviceKey, if_neg]
    intro hc
    rcases hc with hc | hc
    · exact hs hc
    · rw [hd] at hc
      cases hc
  have hev : onDeviceEvent devices la info =
      ⟨devices.insert info.serial { info with action := "add" },
        some info.serial, [Msg.deviceEvent { info with action := "add" }],
        true⟩ := by
    simp only [onDeviceEvent, hkey]
    rw [if_pos ha]
  refine ⟨?_, ?_, ?_, ?_, rfl, rfl, rfl⟩
  · rw [hev]
    exact Dict.lookup_insert_self devices info.serial _
  · rw [hev]
  · rw [hev]
  · rw [broadcastDeliveries, broadcastRun_eq]
    simp

/-- C4 witness: the amended claim at serial `TEST1234` on the empty
registry with two subscribers. -/
theorem C4_witness :
    (onDeviceEvent [] none (mkAddInfo "TEST1234")).devices.lookup
        (mkAddInfo "TEST1234").serial =
      some { mkAddInfo "TEST1234" with action := "add" } :=
  (C4_hotplug_add_stored_and_broadcast [] none (mkAddInfo "TEST1234")
    [1, 2] [] none none true (Or.inl rfl) (by decide) (by decide)).1

/-- C5: a `start_mirror` command for a key already tracked in the process
map is answered with the `already_running` error and leaves the process
map untouched; moreover every command preserves the one-process-per-key
invariant (unique keys in the process map). -/
theorem C5_start_mirror_already_running (devices : Dict DevInfo)
    (processes : Dict Nat) (req : Request) (spawn : Option Nat)
    (stopOk : Bool) (s : String) (hc : req.cmd = some "start_mirror")
    (hs : req.serial = some s) (hne : s ≠ "")
    (hmem : processes.contains s = true) :
    handleCmd devices processes req spawn stopOk =
      (errorReply "already_running", processes) ∧
    ∀ (req' : Request) (spawn' : Option Nat) (stopOk' : Bool),
      processes.keys.Nodup →
        ((handleCmd devices processes req' spawn' stopOk').2).keys.Nodup := by
  constructor
  · rw [handleCmd.eq_def, hc, hs]
    simp [pyTruthy, hne, hmem]
  · intro req' spawn' stopOk' h
    exact handleCmd_nodup devices processes req' spawn' stopOk' h

/-- C5 witness: starting serial `X` while `X` is tracked with pid 5. -/
theorem C5_witness :
    handleCmd [] [("X", 5)]
        { Request.base with cmd := some "start_mirror", serial := some "X" }
        (some 9) true = (errorReply "already_running", [("X", 5)]) :=
  (C5_start_mirror_already_running [] [("X", 5)]
    { Request.base with cmd := some "start_mirror", serial := some "X" }
    (some 9) true "X" rfl rfl (by decide) (by decide)).1

/-- C6: a broadcast delivers the message to exactly the connections whose
write succeeds, and removes exactly the failing connections from the
subscriber set; in particular with subscribers 1, 2, 3 where 2's write
fails, 1 and 3 are delivered and retained. -/
theorem C6_broadcast_failure_isolated (clients : List Conn)
    (fails : Conn → Bool) (m : Msg) :
    broadcastDeliveries clients fails m =
      (clients.filter (fun w => !(fails w))).map (fun w => (w, m)) ∧
    broadcastSurvivors clients fails =
      clients.filter (fun w => !(fails w)) ∧
    (∀ w ∈ clients, fails w = false →
      (w, m) ∈ broadcastDeliveries clients fails m ∧
        w ∈ broadcastSurvivors clients fails) ∧
    broadcastDeliveries [1, 2, 3] (fun w => w == 2) m = [(1, m), (3, m)] ∧
    broadcastSurvivors [1, 2, 3] (fun w => w == 2) = [1, 3] := by
  have hdel : broadcastDeliveries clients fails m =
      (clients.filter (fun w => !(fails w))).map (fun w => (w, m)) := by
    rw [broadcastDeliveries, broadcastRun_eq]
  have hsur : broadcastSurvivors clients fails =
      clients.filter (fun w => !(fails w)) := by
    rw [broadcastSurvivors]
    refine List.filter_congr ?_
    intro w hw
    rw [broadcastRun_eq]
    cases hf : fails w with
    | true => simp [List.mem_filter, hw, hf]
    | false => simp [List.mem_filter, hw, hf]
  refine ⟨hdel, hsur, ?_, ?_, ?_⟩
  · intro w hw hf
    constructor
    · rw [hdel]
      exact List.mem_map.2 ⟨w, List.mem_filter.2 ⟨hw, by simp [hf]⟩, rfl⟩
    · rw [hsur]
      exact List.mem_filter.2 ⟨hw, by simp [hf]⟩
  · rw [broadcastDeliveries, broadcastRun_eq]
    rfl
  · rfl

/-- C6 witness: with subscribers 1, 2, 3 and connection 2 failing,
subscriber 1 is delivered and retained. -/
theorem C6_witness :
    (1, Msg.deviceRemoveBare "w") ∈
      broadcastDeliveries [1, 2, 3] (fun w => w == 2)
        (Msg.deviceRemoveBare "w") ∧
    1 ∈ broadcastSurvivors [1, 2, 3] (fun w => w == 2) :=
  (C6_broadcast_failure_isolated [1, 2, 3] (fun w => w == 2)
    (Msg.deviceRemoveBare "w")).2.2.1 1 (by decide) (by decide)

/-- C7 counterexample: fed a reply that carries no id at all, the
client's reply loop returns it — so `send_command` does not return only
replies whose id equals the correlation id. -/
theorem C7_counterexample :
    readReplies "1700000000-1" [noIdStateReply] =
      SendResult.ok noIdStateReply ∧
    noIdStateReply.id ≠ some "1700000000-1" := by
  exact ⟨by decide, by decide⟩

/-- C7 (amended): `send_command` attaches a freshly generated correlation
id only when the caller supplied none, silently discards replies bearing a
different id, and returns either a reply whose id equals the correlation
id (raising a helper error when its code is nonzero) or the first reply
that carries no id at all; an exhausted stream raises `no response`. -/
theorem C7_send_command_reply_matching (reqId : String) :
    (∀ (replies : List Reply) (r : Reply),
      readReplies reqId replies = SendResult.ok r →
        r.id = some reqId ∨ r.id = none) ∧
    (∀ (r : Reply) (rest : List Reply) (rid : String), r.id = some rid →
      rid ≠ reqId →
        readReplies reqId (r :: rest) = readReplies reqId rest) ∧
    readReplies reqId [] = SendResult.errNoResponse ∧
    (∀ now counter : Nat, attachReqId none now counter =
      toString now ++ "-" ++ toString (counter + 1)) ∧
    (∀ (i : String) (now counter : Nat),
      attachReqId (some i) now counter = i) := by
  refine ⟨?_, ?_, rfl, fun now counter => rfl, fun i now counter => rfl⟩
  · intro replies
    induction replies with
    | nil =>
        intro r h
        exact SendResult.noConfusion h
    | cons r0 rest ih =>
        intro r h
        cases h0 : r0.id with
        | none =>
            simp only [readReplies, h0] at h
            exact Or.inr ((SendResult.ok.inj h) ▸ h0)
        | some rid =>
            simp only [readReplies, h0] at h
            by_cases hr : rid = reqId
            · rw [if_pos hr] at h
              cases hcode : r0.code with
              | none =>
                  simp only [hcode] at h
                  exact Or.inl ((SendResult.ok.inj h) ▸ (hr ▸ h0))
              | some c =>
                  simp only [hcode] at h
                  by_cases hc0 : c = 0
                  · rw [if_pos hc0] at h
                    exact Or.inl ((SendResult.ok.inj h) ▸ (hr ▸ h0))
                  · rw [if_neg hc0] at h
                    exact SendResult.noConfusion h
            · rw [if_neg hr] at h
              exact ih r h
  · intro r rest rid h0 hne
    simp only [readReplies, h0]
    rw [if_neg hne]

/-- C7 witness: a reply correlated to request `7` is skipped while waiting
for the reply to request `42`. -/
theorem C7_witness :
    readReplies "42" (otherIdReply :: [matchingReply]) =
      readReplies "42" [matchingReply] :=
  (C7_send_command_reply_matching "42").2.1 otherIdReply [matchingReply]
    "7" rfl (by decide)

/-- C8: a remove signal with no usable identifier removes exactly the most
recently added device and broadcasts its removal; the most-recently-added
pointer is cleared, so a second anonymous remove leaves the device map
unchanged. -/
theorem C8_anonymous_remove_uses_last_added (devices : Dict DevInfo)
    (info info2 : DevInfo) (k : String)
    (ha : info.action = "remove" ∨ info.action = "unbind")
    (hkey : deviceKey info = none)
    (ha2 : info2.action = "remove" ∨ info2.action = "unbind")
    (hkey2 : deviceKey info2 = none) :
    (onDeviceEvent devices (some k) info).devices = devices.erase k ∧
    (onDeviceEvent devices (some k) info).lastAdded = none ∧
    ((∃ i, devices.lookup k = some i ∧
        (onDeviceEvent devices (some k) info).broadcasts =
          [Msg.deviceEvent { i with action := "remove" }]) ∨
      (devices.lookup k = none ∧
        (onDeviceEvent devices (some k) info).broadcasts =
          [Msg.deviceRemoveBare k])) ∧
    (onDeviceEvent (onDeviceEvent devices (some k) info).devices
        (onDeviceEvent devices (some k) info).lastAdded info2).devices =
      (onDeviceEvent devices (some k) info).devices := by
  cases hl : devices.lookup k with
  | some i =>
      have hev : onDeviceEvent devices (some k) info =
          ⟨devices.erase k, none,
            [Msg.deviceEvent { i with action := "remove" }], true⟩ := by
        simp only [onDeviceEvent, hkey]
        rw [if_pos ha]
        simp only [hl]
      refine ⟨by rw [hev], by rw [hev], Or.inl ⟨i, rfl, by rw [hev]⟩, ?_⟩
      rw [hev]
      simp only [onDeviceEvent, hkey2]
      rw [if_pos ha2]
  | none =>
      have her : devices.erase k = devices :=
        Dict.erase_eq_of_lookup_none hl
      have hev : onDeviceEvent devices (some k) info =
          ⟨devices, none, [Msg.deviceRemoveBare k], true⟩ := by
        simp only [onDeviceEvent, hkey]
        rw [if_pos ha]
        simp only [hl]
      refine ⟨by rw [hev, her], by rw [hev], Or.inr ⟨rfl, by rw [hev]⟩, ?_⟩
      rw [hev]
      simp only [onDeviceEvent, hkey2]
      rw [if_pos ha2]

/-- C8 witness: an anonymous remove with `X` most recently added removes
exactly `X`. -/
theorem C8_witness :
    (onDeviceEvent [("X", hotplugSample)] (some "X")
        anonymousRemove).devices =
      Dict.erase [("X", hotplugSample)] "X" :=
  (C8_anonymous_remove_uses_last_added [("X", hotplugSample)]
    anonymousRemove anonymousRemove "X" (Or.inl rfl) (by decide)
    (Or.inl rfl) (by decide)).1

/-- C9: `_send`'s normalization gives every status-only reply a `code`
(0 for `ok`, defaulting to 1 otherwise), and every reply the command
router or the subscribe/error paths produce already carries a consistent
`code`/`status` pair (`code = 0` iff `status = "ok"`), which the
normalization passes through unchanged. -/
theorem C9_reply_code_status_normalization (m : Reply)
    (devices : Dict DevInfo) (processes : Dict Nat) (req : Request)
    (spawn : Option Nat) (stopOk : Bool) (rid : Option String) :
    (m.code = none → m.status ≠ none →
      (((sendNormalize m).code = some 0) ↔ m.status = some "ok") ∧
      (sendNormalize m).code ≠ none ∧
      (sendNormalize m).status = m.status) ∧
    ((handleCmd devices processes req spawn stopOk).1.code ≠ none ∧
      (handleCmd devices processes req spawn stopOk).1.status ≠ none ∧
      ((handleCmd devices processes req spawn stopOk).1.code = some 0 ↔
        (handleCmd devices processes req spawn stopOk).1.status =
          some "ok") ∧
      sendNormalize (handleCmd devices processes req spawn stopOk).1 =
        (handleCmd devices processes req spawn stopOk).1) ∧
    ((subscribeReply devices rid).code = some 0 ∧
      (subscribeReply devices rid).status = some "ok" ∧
      sendNormalize (subscribeReply devices rid) =
        subscribeReply devices rid) ∧
    ((errorReply "invalid_json").code = some 1 ∧
      (errorReply "invalid_json").status = some "error" ∧
      (errorReply "unknown_request").code = some 1 ∧
      (errorReply "unknown_request").status = some "error") := by
  obtain ⟨hiff, hcode, hstatus⟩ :=
    handleCmd_code_status devices processes req spawn stopOk
  refine ⟨?_, ⟨hcode, hstatus, hiff, sendNormalize_of_code_some _ hcode⟩,
    ⟨rfl, rfl, sendNormalize_of_code_some _
      (fun hcc => Option.noConfusion hcc)⟩, rfl, rfl, rfl, rfl⟩
  intro h1 h2
  rw [sendNormalize, if_pos ⟨h1, h2⟩]
  by_cases hok : m.status = some "ok"
  · rw [if_pos hok]
    exact ⟨⟨fun _ => hok, fun _ => rfl⟩,
      fun hcc => Option.noConfusion hcc, rfl⟩
  · rw [if_neg hok]
    exact ⟨⟨fun hcc => absurd (Option.some.inj hcc) (by decide),
      fun hcc => absurd hcc hok⟩, fun hcc => Option.noConfusion hcc, rfl⟩

/-- C9 witness: the normalization clause at a concrete reply carrying only
an error status. -/
theorem C9_witness :
    (((sendNormalize { Reply.base with status := some "error" }).code =
        some 0) ↔
      ({ Reply.base with status := some "error" } : Reply).status =
        some "ok") ∧
    (sendNormalize { Reply.base with status := some "error" }).code ≠
      none ∧
    (sendNormalize { Reply.base with status := some "error" }).status =
      ({ Reply.base with status := some "error" } : Reply).status :=
  (C9_reply_code_status_normalization
    { Reply.base with status := some "error" } [] [] Request.base none true
    none).1 rfl (by decide)

/-- C10: an add or bind signal whose serial is empty or a `/dev/` path and
whose vendor or product id is missing is silently dropped: the device map,
the most-recently-added pointer, the broadcast stream and the rescan
schedule are all untouched. -/
theorem C10_unidentified_add_dropped (devices : Dict DevInfo)
    (la : Option String) (info : DevInfo)
    (ha : info.action = "add" ∨ info.action = "bind")
    (hs : info.serial = "" ∨ strStartsWith info.serial "/dev/" = true)
    (hvp : ¬ (pyTruthy info.vendor_id = true ∧
      pyTruthy info.product_id = true)) :
    onDeviceEvent devices la info = ⟨devices, la, [], false⟩ := by
  have hkey : deviceKey info = none := by
    rw [deviceKey, if_pos hs, if_neg]
    intro hc
    rw [Bool.and_eq_true] at hc
    exact hvp hc
  have hrm : ¬ (info.action = "remove" ∨ info.action = "unbind") := by
    intro hr
    rcases ha with h | h <;> rcases hr with h2 | h2 <;>
      (rw [h] at h2; exact absurd h2 (by decide))
  simp only [onDeviceEvent, hkey]
  rw [if_neg hrm]

/-- C10 witness: an add with empty serial and missing product id on a
one-device registry changes nothing and broadcasts nothing. -/
theorem C10_witness :
    onDeviceEvent [("X", hotplugSample)] (some "X") anonymousAdd =
      ⟨[("X", hotplugSample)], some "X", [], false⟩ :=
  C10_unidentified_add_dropped [("X", hotplugSample)] (some "X")
    anonymousAdd (Or.inl rfl) (Or.inl rfl) (by decide)

end UdevProxy
